import Mathlib

/-!
Verification of the manual time-sharing / cooperative scheduler core of the
FreeRTOS multitasking labs.

The embedding below translates, function by function, the scheduler logic of
`00-multitasking/lab2/main/lab2.c` (round-robin time-sharing scheduler with
statistics), `00-multitasking/lab3/main/lab3.c` (cooperative scheduler with an
emergency signal) and the priority-inversion demo of
`02-tasks/step1/main/step1.c`.  Time measurements delivered by the external
monotonic clock (`esp_timer_get_time`) are modelled as an oracle parameter
`dur` giving the elapsed duration of each dispatch cycle; GPIO and logging are
external collaborators with no influence on the scheduler state and are
dropped.
-/

namespace Lab2

/-- `TASK_COUNT` of lab2.c: the task enum lists TASK_SENSOR, TASK_PROCESS,
TASK_ACTUATOR, TASK_DISPLAY. -/
def TASK_COUNT : Nat := 4

/-- Default time slice (`#define TIME_SLICE_MS 50`). -/
def TIME_SLICE_MS : Nat := 50

/-- The mutable globals of lab2.c together with the per-task static invocation
counters (`sensor_count`, `process_count`, `actuator_count`, `display_count`,
kept as one map `invocations : Nat → Nat`). -/
structure SchedState where
  task_counter : Nat
  context_switch_time : Nat
  context_switches : Nat
  run_manual_scheduler : Bool
  current_time_slice_ms : Nat
  invocations : Nat → Nat

/-- Initial values of the globals at boot. -/
def initState : SchedState :=
  { task_counter := 0
    context_switch_time := 0
    context_switches := 0
    run_manual_scheduler := true
    current_time_slice_ms := TIME_SLICE_MS
    invocations := fun _ => 0 }

/-- The `switch (task_counter % TASK_COUNT)` of `manual_scheduler`: which
workload the dispatch executes; the defensive `default` branch is `none`. -/
def select_task (c : Nat) : Option Nat :=
  match c % TASK_COUNT with
  | 0 => some 0
  | 1 => some 1
  | 2 => some 2
  | 3 => some 3
  | _ => none

/-- Executing workload `tid` bumps that task's static invocation counter
(the only scheduler-visible effect of `simulate_*_task`). -/
def run_workload (tid : Nat) (inv : Nat → Nat) : Nat → Nat :=
  fun t => if t = tid then inv t + 1 else inv t

/-- Effect of the dispatch switch on the invocation counters: the selected
workload runs; the `default` branch runs nothing. -/
def exec_selected (c : Nat) (inv : Nat → Nat) : Nat → Nat :=
  match select_task c with
  | some tid => run_workload tid inv
  | none => inv

/-- One cycle of `manual_scheduler` in lab2.c: increment `context_switches`,
execute the task selected by `task_counter % TASK_COUNT`, accumulate the
measured duration of this invocation into `context_switch_time`, and increment
`task_counter`.  `dur` is the clock-measured `end_time - start_time` of this
cycle. -/
def manual_scheduler (dur : Nat) (s : SchedState) : SchedState :=
  { s with
    context_switches := s.context_switches + 1
    invocations := exec_selected s.task_counter s.invocations
    context_switch_time := s.context_switch_time + dur
    task_counter := s.task_counter + 1 }

/-- `n` consecutive dispatch cycles; cycle `j` takes measured duration
`dur j`. -/
def runSched (dur : Nat → Nat) : Nat → SchedState → SchedState
  | 0, s => s
  | n + 1, s => manual_scheduler (dur n) (runSched dur n s)

theorem select_task_eq (c : Nat) : select_task c = some (c % TASK_COUNT) := by
  have h4 : c % TASK_COUNT < 4 := Nat.mod_lt _ (by decide)
  rcases hm : c % TASK_COUNT with _ | _ | _ | _ | m
  · simp [select_task, hm]
  · simp [select_task, hm]
  · simp [select_task, hm]
  · simp [select_task, hm]
  · omega

theorem exec_selected_eq (c : Nat) (inv : Nat → Nat) (t : Nat) :
    exec_selected c inv t = if c % TASK_COUNT = t then inv t + 1 else inv t := by
  unfold exec_selected
  rw [select_task_eq]
  unfold run_workload
  rcases eq_or_ne (c % TASK_COUNT) t with h | h
  · simp [h]
  · simp [h, Ne.symm h]

theorem runSched_task_counter (dur : Nat → Nat) (n : Nat) (s : SchedState) :
    (runSched dur n s).task_counter = s.task_counter + n := by
  induction n with
  | zero => rfl
  | succ n ih => simp [runSched, manual_scheduler, ih]; omega

theorem runSched_context_switches (dur : Nat → Nat) (n : Nat) (s : SchedState) :
    (runSched dur n s).context_switches = s.context_switches + n := by
  induction n with
  | zero => rfl
  | succ n ih => simp [runSched, manual_scheduler, ih]; omega

theorem runSched_context_switch_time (dur : Nat → Nat) (n : Nat) (s : SchedState) :
    (runSched dur n s).context_switch_time
      = s.context_switch_time + ∑ j ∈ Finset.range n, dur j := by
  induction n with
  | zero => simp [runSched]
  | succ n ih =>
      simp [runSched, manual_scheduler, ih, Finset.sum_range_succ]
      omega

theorem runSched_run_flag (dur : Nat → Nat) (n : Nat) (s : SchedState) :
    (runSched dur n s).run_manual_scheduler = s.run_manual_scheduler := by
  induction n with
  | zero => rfl
  | succ n ih => simp [runSched, manual_scheduler, ih]

theorem runSched_time_slice (dur : Nat → Nat) (n : Nat) (s : SchedState) :
    (runSched dur n s).current_time_slice_ms = s.current_time_slice_ms := by
  induction n with
  | zero => rfl
  | succ n ih => simp [runSched, manual_scheduler, ih]

/-- Per-task invocation count after `n` cycles from a reset (`task_counter = 0`):
task `t` has been selected `n / TASK_COUNT` times, plus once more if `t` is
among the first `n % TASK_COUNT` registry slots. -/
theorem invocations_formula (dur : Nat → Nat) (s : SchedState)
    (h0 : s.task_counter = 0) (n t : Nat) (ht : t < TASK_COUNT) :
    (runSched dur n s).invocations t
      = s.invocations t + n / TASK_COUNT
          + (if t < n % TASK_COUNT then 1 else 0) := by
  induction n with
  | zero => simp [runSched, TASK_COUNT]
  | succ n ih =>
      have hc : (runSched dur n s).task_counter = n := by
        rw [runSched_task_counter, h0]; omega
      show (manual_scheduler (dur n) (runSched dur n s)).invocations t = _
      rw [show (manual_scheduler (dur n) (runSched dur n s)).invocations
            = exec_selected (runSched dur n s).task_counter
                (runSched dur n s).invocations from rfl,
          exec_selected_eq, hc, ih]
      simp only [TASK_COUNT] at ht ⊢
      split_ifs <;> omega

/-- C1: Round-robin fairness of the TimeSharingScheduler.  The dispatcher
always selects `registry[task_counter mod TASK_COUNT]`, so after `n`
consecutive dispatch cycles started from a reset (`task_counter = 0`), where
`n` is a multiple of `TASK_COUNT`, each task's invocation counter has grown by
exactly `n / TASK_COUNT`. -/
theorem round_robin_fairness (dur : Nat → Nat) (s : SchedState) (n t : Nat)
    (h0 : s.task_counter = 0) (hn : TASK_COUNT ∣ n) (ht : t < TASK_COUNT) :
    (runSched dur n s).invocations t = s.invocations t + n / TASK_COUNT := by
  rw [invocations_formula dur s h0 n t ht]
  obtain ⟨k, rfl⟩ := hn
  simp only [TASK_COUNT] at ht ⊢
  split_ifs with h <;> omega

/-- Witness for C1: 8 cycles from boot, task 2 selected exactly twice. -/
theorem round_robin_fairness_witness :
    initState.task_counter = 0 ∧ TASK_COUNT ∣ 8 ∧ 2 < TASK_COUNT ∧
    (runSched (fun _ => 0) 8 initState).invocations 2
      = initState.invocations 2 + 8 / TASK_COUNT :=
  ⟨rfl, by decide, by decide,
    round_robin_fairness (fun _ => 0) initState 8 2 rfl (by decide) (by decide)⟩

/-- C9: the selection index `task_counter mod TASK_COUNT` is always a valid
task id (< TASK_COUNT), the defensive `default` branch of the dispatch switch
is never taken, and each dispatch cycle executes exactly one registered
workload: the selected task's invocation counter grows by one and every other
counter is unchanged. -/
theorem no_out_of_range_selection (c : Nat) (inv : Nat → Nat) :
    c % TASK_COUNT < TASK_COUNT ∧
    select_task c = some (c % TASK_COUNT) ∧
    exec_selected c inv (c % TASK_COUNT) = inv (c % TASK_COUNT) + 1 ∧
    (∀ u, u ≠ c % TASK_COUNT → exec_selected c inv u = inv u) := by
  refine ⟨Nat.mod_lt _ (by decide), select_task_eq c, ?_, ?_⟩
  · rw [exec_selected_eq]; simp
  · intro u hu
    rw [exec_selected_eq]
    simp [Ne.symm hu]

/-- Derived statistics of lab2.c, over exact rational arithmetic in place of
the C floats (the zero-guard branch structure is identical): CPU utilization
is `accumulated / total × 100` guarded by `total_time > 0`. -/
def cpu_utilization (context_switch_time total_time : Nat) : Rat :=
  if 0 < total_time
  then ((context_switch_time : Rat) / (total_time : Rat)) * 100
  else 0

/-- `overhead_percentage = 100.0f - cpu_utilization` in `manual_task`. -/
def overhead_percentage (u : Rat) : Rat := 100 - u

/-- `avg_per_task_us = (context_switches > 0) ? context_switch_time /
context_switches : 0` (integer division, as in the C source). -/
def avg_per_task_us (context_switch_time context_switches : Nat) : Nat :=
  if 0 < context_switches then context_switch_time / context_switches else 0

/-- Efficiency of a time-slice trial in `variable_time_slice_experiment`:
`context_switch_time / test_duration × 100` guarded by `test_duration > 0`. -/
def efficiency (context_switch_time test_duration : Nat) : Rat :=
  if 0 < test_duration
  then ((context_switch_time : Rat) / (test_duration : Rat)) * 100
  else 0

/-- The reporting guard of `manual_task`: statistics are computed when
`context_switches > 0 && (context_switches % 20) == 0`. -/
def report_due (context_switches : Nat) : Bool :=
  decide (0 < context_switches) && (context_switches % 20 == 0)

/-- C4: zero-guard on derived statistics.  Every derived-metric computation
returns 0 instead of dividing when its denominator is zero: utilization and
efficiency with zero wall-clock duration are 0, and the average per invocation
with zero context switches is 0. -/
theorem zero_guard_stats (cst : Nat) :
    cpu_utilization cst 0 = 0 ∧ efficiency cst 0 = 0 ∧ avg_per_task_us cst 0 = 0 := by
  refine ⟨?_, ?_, ?_⟩ <;> simp [cpu_utilization, efficiency, avg_per_task_us]

/-- C6: derived-statistics postcondition.  The reporting guard fires exactly
when `context_switches` is a positive multiple of 20; utilization plus the
overhead derived from it is exactly 100; and with positive `context_switches`
the average per invocation is `context_switch_time / context_switches`. -/
theorem stats_postcondition (cs cst total : Nat) :
    (report_due cs = true ↔ 0 < cs ∧ 20 ∣ cs) ∧
    cpu_utilization cst total
      + overhead_percentage (cpu_utilization cst total) = 100 ∧
    (0 < cs → avg_per_task_us cst cs = cst / cs) := by
  refine ⟨?_, ?_, ?_⟩
  · simp only [report_due, Bool.and_eq_true, beq_iff_eq, decide_eq_true_eq]
    omega
  · unfold overhead_percentage
    ring
  · intro h
    simp [avg_per_task_us, h]

/-- Witness for C6: at 20 context switches the guard fires and the average is
the integer quotient. -/
theorem stats_postcondition_witness :
    report_due 20 = true ∧ avg_per_task_us 60 20 = 60 / 20 :=
  ⟨(stats_postcondition 20 60 50).1.mpr ⟨by decide, by decide⟩,
    (stats_postcondition 20 60 50).2.2 (by decide)⟩

/-- The fixed slice list of `variable_time_slice_experiment`:
`uint32_t time_slices[] = {10, 25, 50, 100, 200};`. -/
def time_slices : List Nat := [10, 25, 50, 100, 200]

/-- `int iterations = 50;` — dispatch cycles per slice trial. -/
def trial_iterations : Nat := 50

/-- One slice trial: reset `context_switches`, `context_switch_time` and
`task_counter` to 0, then run `trial_iterations` cycles of `manual_scheduler`.
`dur j` is the measured duration of the trial's `j`-th cycle. -/
def run_trial (dur : Nat → Nat) (s : SchedState) : SchedState :=
  runSched dur trial_iterations
    { s with context_switches := 0, context_switch_time := 0, task_counter := 0 }

/-- The `for (int i = 0; i < num_slices; i++)` loop: trial `i` uses duration
oracle `dur i`; each trial records the pair (slice value, context_switches at
the end of the trial). -/
def experiment_loop (dur : Nat → Nat → Nat) :
    Nat → List Nat → SchedState → SchedState × List (Nat × Nat)
  | _, [], s => (s, [])
  | i, ts :: rest, s =>
      let s1 := run_trial (dur i) s
      let r := experiment_loop dur (i + 1) rest s1
      (r.1, (ts, s1.context_switches) :: r.2)

/-- `variable_time_slice_experiment` of lab2.c: pause the background
scheduler, run one trial per entry of `time_slices`, then restore
`current_time_slice_ms` to the default and re-enable the scheduler.  Returns
the final global state and the recorded per-slice context-switch counts. -/
def variable_time_slice_experiment (dur : Nat → Nat → Nat) (s : SchedState) :
    SchedState × List (Nat × Nat) :=
  let s0 := { s with run_manual_scheduler := false }
  let r := experiment_loop dur 0 time_slices s0
  ({ r.1 with current_time_slice_ms := TIME_SLICE_MS, run_manual_scheduler := true },
   r.2)

theorem run_trial_context_switches (dur : Nat → Nat) (s : SchedState) :
    (run_trial dur s).context_switches = trial_iterations := by
  unfold run_trial
  rw [runSched_context_switches]
  simp

theorem run_trial_task_counter (dur : Nat → Nat) (s : SchedState) :
    (run_trial dur s).task_counter = trial_iterations := by
  unfold run_trial
  rw [runSched_task_counter]
  simp

theorem run_trial_context_switch_time (dur : Nat → Nat) (s : SchedState) :
    (run_trial dur s).context_switch_time
      = ∑ j ∈ Finset.range trial_iterations, dur j := by
  unfold run_trial
  rw [runSched_context_switch_time]
  simp

theorem run_trial_run_flag (dur : Nat → Nat) (s : SchedState) :
    (run_trial dur s).run_manual_scheduler = s.run_manual_scheduler := by
  unfold run_trial
  rw [runSched_run_flag]

theorem experiment_loop_records (dur : Nat → Nat → Nat) :
    ∀ (l : List Nat) (i : Nat) (s : SchedState),
      (experiment_loop dur i l s).2 = l.map (fun ts => (ts, trial_iterations)) := by
  intro l
  induction l with
  | nil => intro i s; rfl
  | cons ts rest ih =>
      intro i s
      simp [experiment_loop, ih, run_trial_context_switches]

/-- C5: time-slice experiment determinism.  The experiment records one count
per entry of the fixed slice list {10, 25, 50, 100, 200}, each trial performs
exactly 50 dispatch cycles after resetting the counters, so the recorded
`context_switches` is 50 for every slice value — identically for two runs with
arbitrary (even different) workload-duration oracles and start states. -/
theorem time_slice_experiment_deterministic (d1 d2 : Nat → Nat → Nat)
    (s1 s2 : SchedState) :
    (variable_time_slice_experiment d1 s1).2
        = time_slices.map (fun ts => (ts, trial_iterations)) ∧
    (variable_time_slice_experiment d1 s1).2
        = (variable_time_slice_experiment d2 s2).2 := by
  constructor
  · unfold variable_time_slice_experiment
    rw [experiment_loop_records]
  · unfold variable_time_slice_experiment
    rw [experiment_loop_records, experiment_loop_records]

/-- C10: post-state of `variable_time_slice_experiment`.  On return the
background scheduler is re-enabled, `current_time_slice_ms` is restored to the
50 ms default, and the statistics counters hold the values reached in the
final (fifth) trial — `context_switches = task_counter = 50` and
`context_switch_time` equal to the accumulated durations of the last trial's
50 cycles — rather than any pre-experiment value. -/
theorem experiment_post_state (dur : Nat → Nat → Nat) (s : SchedState) :
    (variable_time_slice_experiment dur s).1.run_manual_scheduler = true ∧
    (variable_time_slice_experiment dur s).1.current_time_slice_ms = TIME_SLICE_MS ∧
    (variable_time_slice_experiment dur s).1.context_switches = trial_iterations ∧
    (variable_time_slice_experiment dur s).1.task_counter = trial_iterations ∧
    (variable_time_slice_experiment dur s).1.context_switch_time
      = ∑ j ∈ Finset.range trial_iterations, dur 4 j := by
  unfold variable_time_slice_experiment
  simp only [time_slices, experiment_loop]
  refine ⟨trivial, trivial, ?_, ?_, ?_⟩
  · rw [run_trial_context_switches]
  · rw [run_trial_task_counter]
  · rw [run_trial_context_switch_time]

end Lab2

namespace Lab3

/-- Result of one invocation of a cooperative task function: either it ran
to its full quota of work units and finished normally, or it returned early at
an emergency checkpoint (the RUNNING → YIELDED early-exit transition).  The
payload is the number of work units completed. -/
inductive CoopResult where
  | yieldedEarly : Nat → CoopResult
  | completed : Nat → CoopResult
deriving DecidableEq

/-- Work units completed by an invocation. -/
def unitsDone : CoopResult → Nat
  | .yieldedEarly u => u
  | .completed u => u

/-- The work loop shared by `cooperative_task1` / `cooperative_task2` in
lab3.c: with `i` units already done and `r` remaining, the task performs the
next busy-work unit, then checks the emergency flag (`e i` is the flag's value
during step `i`, i.e. from the start of that step through its checkpoint —
there is no checkpoint mid-unit); if set it returns early, otherwise it
voluntarily yields for one tick (`vTaskDelay(1)`) and continues. -/
def coop_loop (e : Nat → Bool) : Nat → Nat → CoopResult
  | i, 0 => .completed i
  | i, r + 1 => if e i then .yieldedEarly (i + 1) else coop_loop e (i + 1) r

/-- Task1's quota: `for (int i = 0; i < 5; i++)`. -/
def task1_quota : Nat := 5

/-- Task2's quota: `for (int i = 0; i < 10; i++)`. -/
def task2_quota : Nat := 10

/-- `cooperative_task1` of lab3.c, as a function of the emergency-flag trace
`e` at its step checkpoints. -/
def cooperative_task1 (e : Nat → Bool) : CoopResult := coop_loop e 0 task1_quota

/-- `cooperative_task2` of lab3.c. -/
def cooperative_task2 (e : Nat → Bool) : CoopResult := coop_loop e 0 task2_quota

/-- A flag trace that becomes active exactly at the start of Task1's last work
step (step index 4 of 0..4). -/
def lastStepFlag : Nat → Bool := fun i => i == 4

theorem coop_loop_early (e : Nat → Bool) :
    ∀ (r i j : Nat), j < r → e (i + j) = true →
      ∃ u, coop_loop e i r = .yieldedEarly u ∧ u ≤ i + j + 1 := by
  intro r
  induction r with
  | zero => intro i j hj _; omega
  | succ r ih =>
      intro i j hj he
      by_cases h0 : e i = true
      · exact ⟨i + 1, by simp [coop_loop, h0], by omega⟩
      · cases j with
        | zero =>
            rw [show i + 0 = i from rfl] at he
            exact absurd he h0
        | succ j' =>
            have he' : e (i + 1 + j') = true := by
              rw [show i + 1 + j' = i + (j' + 1) by omega]; exact he
            obtain ⟨u, hu, hle⟩ := ih (i + 1) j' (by omega) he'
            refine ⟨u, ?_, by omega⟩
            simp [coop_loop, h0, hu]

/-- Counterexample to C2 as stated: with the emergency signal active at the
start of Task1's last work step (step 4), the task still performs that unit
before the checkpoint, so it completes all 5 units — its full quota, not
strictly fewer — though it does return through the early-exit branch. -/
theorem cooperative_early_exit_counterexample :
    lastStepFlag 4 = true ∧ 4 < task1_quota ∧
    cooperative_task1 lastStepFlag = CoopResult.yieldedEarly 5 ∧
    ¬ unitsDone (cooperative_task1 lastStepFlag) < task1_quota := by
  decide

/-- C2 (amended): if the emergency signal is active at the start of a work
step other than the last one, the cooperative task returns early through the
emergency branch having completed strictly fewer work units than its full
quota (5 for Task1, 10 for Task2); control returns to the dispatcher before
the next scheduled task runs.  (If the signal only becomes active at the start
of the last step, the task finishes that unit — reaching its full quota — and
then takes the early-exit branch, per the spec's race edge policy.) -/
theorem cooperative_early_exit (e : Nat → Bool) (i : Nat) :
    (i + 1 < task1_quota → e i = true →
      ∃ u, cooperative_task1 e = CoopResult.yieldedEarly u ∧ u < task1_quota) ∧
    (i + 1 < task2_quota → e i = true →
      ∃ u, cooperative_task2 e = CoopResult.yieldedEarly u ∧ u < task2_quota) := by
  constructor
  · intro hi he
    obtain ⟨u, hu, hle⟩ :=
      coop_loop_early e task1_quota 0 i (by omega) (by simpa using he)
    exact ⟨u, hu, by omega⟩
  · intro hi he
    obtain ⟨u, hu, hle⟩ :=
      coop_loop_early e task2_quota 0 i (by omega) (by simpa using he)
    exact ⟨u, hu, by omega⟩

/-- Witness for C2 (amended): signal active from step 1 of Task1 — the task
yields early with 2 of its 5 units done. -/
theorem cooperative_early_exit_witness :
    ∃ u, cooperative_task1 (fun i => i == 1) = CoopResult.yieldedEarly u ∧
      u < task1_quota :=
  (cooperative_early_exit (fun i => i == 1) 1).1 (by decide) (by decide)

/-- Number of entries of the `tasks[]` table in `cooperative_scheduler`:
Task1, Task2, Emergency. -/
def num_tasks : Nat := 3

/-- Index of the emergency pseudo-task in the `tasks[]` table. -/
def EMERGENCY_ID : Nat := 2

/-- `current_task = (current_task + 1) % num_tasks;` — the dispatcher's
advance step. -/
def coop_next (c : Nat) : Nat := (c + 1) % num_tasks

/-- Task index run in the `n`-th iteration of the dispatcher loop
(`current_task` starts at 0 and advances by `coop_next` after each run). -/
def dispatched : Nat → Nat
  | 0 => 0
  | n + 1 => coop_next (dispatched n)

theorem dispatched_eq (n : Nat) : dispatched n = n % 3 := by
  induction n with
  | zero => rfl
  | succ n ih =>
      show coop_next (dispatched n) = (n + 1) % 3
      rw [ih]
      unfold coop_next num_tasks
      omega

/-- C3: the emergency-handler pseudo-task runs every cycle of the cooperative
dispatcher: every window of `num_tasks` consecutive loop iterations contains
an execution of the emergency handler, and between any two consecutive
executions of a given normal cooperative task (which occur exactly
`num_tasks` iterations apart) there is an execution of the emergency
handler. -/
theorem emergency_every_cycle (n : Nat) :
    (∃ k, n ≤ k ∧ k < n + num_tasks ∧ dispatched k = EMERGENCY_ID) ∧
    (∀ t, t < EMERGENCY_ID → dispatched n = t →
      dispatched (n + num_tasks) = t ∧
      (∀ m, n < m → m < n + num_tasks → dispatched m ≠ t) ∧
      (∃ m, n < m ∧ m < n + num_tasks ∧ dispatched m = EMERGENCY_ID)) := by
  simp only [num_tasks, EMERGENCY_ID]
  constructor
  · refine ⟨3 * (n / 3) + 2, by omega, by omega, ?_⟩
    rw [dispatched_eq]; omega
  · intro t ht hn
    rw [dispatched_eq] at hn
    refine ⟨by rw [dispatched_eq]; omega, ?_, ?_⟩
    · intro m hm1 hm2
      rw [dispatched_eq]; omega
    · refine ⟨n + 2 - t, by omega, by omega, ?_⟩
      rw [dispatched_eq]; omega

/-- Witness for C3: iteration 0 runs Task1; its next execution is iteration 3,
and the emergency handler runs strictly in between (iteration 2). -/
theorem emergency_every_cycle_witness :
    dispatched (0 + num_tasks) = 0 ∧
    (∃ m, 0 < m ∧ m < 0 + num_tasks ∧ dispatched m = EMERGENCY_ID) :=
  ⟨((emergency_every_cycle 0).2 0 (by decide) (by decide)).1,
    ((emergency_every_cycle 0).2 0 (by decide) (by decide)).2.2⟩

/-- The state touched by `cooperative_task3_emergency` in lab3.c:
`emergency_flag`, `task_start_time` (µs timestamp at which the emergency was
raised) and `max_response_time` (ms). -/
structure EmergencyState where
  emergency_flag : Bool
  task_start_time : Nat
  max_response_time : Nat
deriving DecidableEq

/-- `cooperative_task3_emergency` of lab3.c: if the flag is set, compute the
response time in ms from the raise timestamp (`now` is the current µs clock),
raise `max_response_time` to it if larger, and clear the flag; otherwise do
nothing. -/
def cooperative_task3_emergency (now : Nat) (s : EmergencyState) : EmergencyState :=
  if s.emergency_flag then
    let response_ms := (now - s.task_start_time) / 1000
    { s with
      max_response_time :=
        if response_ms > s.max_response_time then response_ms
        else s.max_response_time
      emergency_flag := false }
  else s

/-- C8: emergency-handler postcondition.  When the handler runs with the
signal active it records latency `(now − raised_at) / 1000` ms, sets
`max_response_time` to the maximum of its old value and that latency, and
clears the signal; and on every invocation (active or not)
`max_response_time` never decreases — so it is monotonically non-decreasing
over any sequence of handler runs. -/
theorem emergency_handler_post (now : Nat) (s : EmergencyState) :
    (s.emergency_flag = true →
      (cooperative_task3_emergency now s).max_response_time
          = max s.max_response_time ((now - s.task_start_time) / 1000) ∧
      (cooperative_task3_emergency now s).emergency_flag = false) ∧
    s.max_response_time ≤ (cooperative_task3_emergency now s).max_response_time ∧
    (∀ nows : List Nat,
      s.max_response_time
        ≤ (nows.foldl (fun st n2 => cooperative_task3_emergency n2 st)
            s).max_response_time) := by
  have mono : ∀ (n2 : Nat) (st : EmergencyState),
      st.max_response_time ≤ (cooperative_task3_emergency n2 st).max_response_time := by
    intro n2 st
    unfold cooperative_task3_emergency
    by_cases hf : st.emergency_flag
    · rw [if_pos hf]
      simp only
      split_ifs <;> omega
    · rw [if_neg hf]
  refine ⟨?_, mono now s, ?_⟩
  · intro hf
    unfold cooperative_task3_emergency
    rw [hf]
    simp only [if_true]
    constructor
    · simp only [Nat.max_def]
      split_ifs <;> omega
    · trivial
  · intro nows
    induction nows generalizing s with
    | nil => exact le_refl _
    | cons n2 rest ih =>
        exact le_trans (mono n2 s) (ih (cooperative_task3_emergency n2 s))

/-- Witness for C8: flag raised at 0 µs, handler runs at 5000 µs with old
maximum 3 ms — new maximum is `max 3 5` and the flag is cleared. -/
theorem emergency_handler_post_witness :
    (cooperative_task3_emergency 5000 ⟨true, 0, 3⟩).max_response_time = max 3 5 ∧
    (cooperative_task3_emergency 5000 ⟨true, 0, 3⟩).emergency_flag = false :=
  (emergency_handler_post 5000 ⟨true, 0, 3⟩).1 rfl

end Lab3

namespace Step1

/-- Polling backoff of `priority_inversion_high` in step1.c:
`vTaskDelay(pdMS_TO_TICKS(10))` between polls of `shared_resource_busy`. -/
def POLL_INTERVAL_MS : Nat := 10

/-- Hold time of `priority_inversion_low`: it sets `shared_resource_busy =
true`, delays 2000 ms, then sets it back to false — the maximum (and exact)
hold duration. -/
def MAX_HOLD_MS : Nat := 2000

/-- `shared_resource_busy` as a function of time (ms): the low-priority task
holds the resource exactly on the interval `[t0, t0 + h)`. -/
def busyInterval (t0 h t : Nat) : Bool := decide (t0 ≤ t ∧ t < t0 + h)

/-- The polling loop of `priority_inversion_high`:
`while (shared_resource_busy) { vTaskDelay(10 ms); }` — starting at time `t`
with a budget of `fuel` polls, returns `true` iff the task acquires the
resource (observes `busy = false`) within that many polls. -/
def pollAcquire (busy : Nat → Bool) : Nat → Nat → Bool
  | _, 0 => false
  | t, fuel + 1 =>
      if busy t then pollAcquire busy (t + POLL_INTERVAL_MS) fuel else true

theorem pollAcquire_of_free (busy : Nat → Bool) :
    ∀ (fuel t : Nat),
      (∃ k, k < fuel ∧ busy (t + POLL_INTERVAL_MS * k) = false) →
      pollAcquire busy t fuel = true := by
  intro fuel
  induction fuel with
  | zero => intro t ⟨k, hk, _⟩; omega
  | succ fuel ih =>
      intro t ⟨k, hk, hfree⟩
      by_cases hb : busy t
      · have hk0 : k ≠ 0 := by
          intro h
          rw [h] at hfree
          simp at hfree
          rw [hfree] at hb
          exact Bool.noConfusion hb
        have : busy (t + POLL_INTERVAL_MS + POLL_INTERVAL_MS * (k - 1)) = false := by
          rw [show t + POLL_INTERVAL_MS + POLL_INTERVAL_MS * (k - 1)
                = t + POLL_INTERVAL_MS * k by unfold POLL_INTERVAL_MS; omega]
          exact hfree
        simp [pollAcquire, hb]
        exact ih (t + POLL_INTERVAL_MS) ⟨k - 1, by omega, this⟩
      · simp [pollAcquire, hb]

/-- C7: bounded acquisition under priority inversion.  With the low-priority
task holding the resource for `h ≤ MAX_HOLD_MS` ms and the high-priority task
polling every `POLL_INTERVAL_MS` ms from any start time, the high-priority
task acquires the resource within `MAX_HOLD_MS / POLL_INTERVAL_MS + 1 = 201 =
ceil(max_hold_time / poll_interval) + 1` polls — in particular the contention
never deadlocks. -/
theorem bounded_acquisition (t0 h s : Nat) (hh : h ≤ MAX_HOLD_MS) :
    pollAcquire (busyInterval t0 h) s (MAX_HOLD_MS / POLL_INTERVAL_MS + 1) = true := by
  apply pollAcquire_of_free
  simp only [MAX_HOLD_MS, POLL_INTERVAL_MS] at hh ⊢
  rcases le_or_lt t0 s with hs | hs
  · refine ⟨200, by omega, ?_⟩
    simp only [busyInterval, decide_eq_false_iff_not]
    omega
  · refine ⟨0, by omega, ?_⟩
    simp only [busyInterval, decide_eq_false_iff_not]
    omega

/-- Witness for C7: resource held on `[0, 2000)`, polling from time 0 —
acquired within the 201-poll bound. -/
theorem bounded_acquisition_witness :
    2000 ≤ MAX_HOLD_MS ∧
    pollAcquire (busyInterval 0 2000) 0 (MAX_HOLD_MS / POLL_INTERVAL_MS + 1) = true :=
  ⟨by decide, bounded_acquisition 0 2000 0 (by decide)⟩

end Step1
